import Mathlib

/-!
Shallow embedding of the media ingestion and retrieval subsystem of
`hoth-server`: `ImageService` (`src/service/image.rs`) and the route
registration relevant to it (`src/server/http.rs`).

Effectful inputs of the Rust code become explicit arguments: the image
codec (`image::load_from_memory` plus `GenericImageView::dimensions`) is a
`decode` function argument, the freshly generated uuid token and the
wall-clock timestamp feeding `make_filename` are arguments, and the
database pool becomes an explicit table state (`List DbRow`).  Machine
integers are `Nat`/`Int` with explicit reduction modulo `2^w` where Rust
narrows.  A Rust panic is modelled as `Option.none` around the result.
-/

namespace Hoth

/-- Two's-complement narrowing of a pointer-sized value to `i32`
(Rust `as i32`, applied to `bytes.len()`): keep the low 32 bits and
reinterpret them as signed. -/
def wrap32 (n : Nat) : Int :=
  if n % 4294967296 < 2147483648 then (n % 4294967296 : Int)
  else (n % 4294967296 : Int) - 4294967296

/-- Two's-complement narrowing of a `u32` value to `i16` (Rust `as i16`,
applied to the codec-reported dimensions): keep the low 16 bits and
reinterpret them as signed. -/
def wrap16 (n : Nat) : Int :=
  if n % 65536 < 32768 then (n % 65536 : Int) else (n % 65536 : Int) - 65536

/-- UTF-8 encoding of one character, bytes as `Nat` (what Rust's
`str::as_bytes` exposes for it). -/
def utf8Char (c : Char) : List Nat :=
  let n := c.toNat
  if n < 128 then [n]
  else if n < 2048 then [192 + n / 64, 128 + n % 64]
  else if n < 65536 then [224 + n / 4096, 128 + n / 64 % 64, 128 + n % 64]
  else [240 + n / 262144, 128 + n / 4096 % 64, 128 + n / 64 % 64, 128 + n % 64]

/-- The UTF-8 bytes of a string (Rust `str::as_bytes`). -/
def utf8Bytes (s : String) : List Nat := (s.data.map utf8Char).flatten

/-- `2^64`, the modulus of 64-bit machine arithmetic. -/
def m64 : Nat := 18446744073709551616

/-- State of a SipHash computation: four 64-bit words kept as `Nat < 2^64`. -/
structure SipState where
  v0 : Nat
  v1 : Nat
  v2 : Nat
  v3 : Nat

/-- 64-bit wrapping addition. -/
def add64 (a b : Nat) : Nat := (a + b) % m64

/-- 64-bit left rotation. -/
def rotl64 (x r : Nat) : Nat := ((x <<< r) % m64) ||| (x >>> (64 - r))

/-- One SipHash round. -/
def sipRound (s : SipState) : SipState :=
  let v0 := add64 s.v0 s.v1
  let v1 := rotl64 s.v1 13 ^^^ v0
  let v0 := rotl64 v0 32
  let v2 := add64 s.v2 s.v3
  let v3 := rotl64 s.v3 16 ^^^ v2
  let v0 := add64 v0 v3
  let v3 := rotl64 v3 21 ^^^ v0
  let v2 := add64 v2 v1
  let v1 := rotl64 v1 17 ^^^ v2
  let v2 := rotl64 v2 32
  ⟨v0, v1, v2, v3⟩

/-- Little-endian 64-bit word built from at most eight bytes. -/
def le64 (bs : List Nat) : Nat := bs.foldr (fun b acc => b + 256 * acc) 0

/-- Absorb one message word: `v3 ^= m`, one round (SipHash-1-x), `v0 ^= m`. -/
def sipCompress (s : SipState) (m : Nat) : SipState :=
  let s1 := sipRound { s with v3 := s.v3 ^^^ m }
  { s1 with v0 := s1.v0 ^^^ m }

/-- Absorb every full eight-byte block of the input, little-endian, and
return the remaining tail bytes. -/
def sipBlocks (s : SipState) : List Nat → SipState × List Nat
  | b0 :: b1 :: b2 :: b3 :: b4 :: b5 :: b6 :: b7 :: rest =>
      sipBlocks (sipCompress s (le64 [b0, b1, b2, b3, b4, b5, b6, b7])) rest
  | tail => (s, tail)

/-- The xor of the four state words after absorbing the whole input and
running the three finalization rounds of SipHash-1-3 with both key words
zero.  The final block packs the remaining tail bytes little-endian with
the input length modulo 256 in the top byte; finalization xors `0xff` into
`v2` before the three rounds. -/
def sipFinal (data : List Nat) : Nat :=
  let s0 : SipState :=
    ⟨0x736f6d6570736575, 0x646f72616e646f6d, 0x6c7967656e657261, 0x7465646279746573⟩
  let st := sipBlocks s0 data
  let fin : Nat := le64 st.2 + data.length % 256 * 72057594037927936
  let s1 := sipCompress st.1 fin
  let s2 := { s1 with v2 := s1.v2 ^^^ 255 }
  let s3 := sipRound (sipRound (sipRound s2))
  s3.v0 ^^^ s3.v1 ^^^ s3.v2 ^^^ s3.v3

/-- SipHash-1-3 with both key words zero over a byte sequence: the hash
computed by Rust's `std::collections::hash_map::DefaultHasher` (the hasher
`ImageService::make_filename` instantiates at line 175).  The result is
the 64-bit word `finish()` returns. -/
def sipHash13 (data : List Nat) : Nat := sipFinal data % m64

/-- `DefaultHasher::finish` after `temporal_name.hash(&mut state)`
(src/service/image.rs lines 175, 190, 192): Rust's `Hash` for `str` feeds
the string's UTF-8 bytes followed by a `0xff` marker byte to the hasher. -/
def defaultHashString (s : String) : Nat := sipHash13 (utf8Bytes s ++ [255])

/-- Modelled from the spec: the error kinds of `crate::error::AppError`
(`src/error.rs` is not among the sources).  `unsupportedImage` and
`readImageError` are named at call sites in `src/service/image.rs`;
`decodeError` is the image-codec failure (spec kind `DecodeError`);
`notFound` is what a row-not-found lookup maps to (spec kind `NotFound`);
`columnNotFound` and `columnTypeError` are row-decoding failures surfaced
by the database driver; `persistenceError` covers insert failures (spec
kind `PersistenceError`); `configError` is the URL-base failure (spec kind
`ConfigError`). -/
inductive AppError where
  | unsupportedImage (msg : String)
  | readImageError (msg : String)
  | decodeError
  | notFound
  | columnNotFound (column : String)
  | columnTypeError (column : String)
  | persistenceError
  | configError
  deriving DecidableEq

/-- `crate::model::image::Image`, fields as constructed in
`ImageService::from_part` (src/service/image.rs lines 74-83): `id` is a
`Uuid` modelled as its string form, `height` and `width` are `i16`, `size`
is `i32`, `image` holds the raw upload bytes. -/
structure Image where
  id : String
  url : String
  filename : String
  image : List Nat
  size : Int
  mime : String
  height : Int
  width : Int
  deriving DecidableEq

/-- `ImageResource` (src/service/image.rs lines 20-30). -/
structure ImageResource where
  id : String
  owner_id : String
  height : Int
  width : Int
  mime : String
  filename : String
  url : String
  size : Int
  deriving DecidableEq

/-- What the image codec reports for a decoded image:
`GenericImageView::dimensions` returns the pair `(width, height)` of `u32`
values, captured here as named fields. -/
structure Dimensions where
  width : Nat
  height : Nat
  deriving DecidableEq

/-- A multipart `Part`: its optional `content-type` header and its byte
stream, modelled as the list of chunks the stream yields plus an optional
transport error that aborts it. -/
structure Part where
  content_type : Option String
  chunks : List (List Nat)
  streamError : Option String

/-- Modelled from the spec: the state of `UrlService`
(`src/service/url.rs` is not among the sources).  Per §4.4 it holds a
configured server base address, possibly absent. -/
structure UrlService where
  base_url : Option String

/-- Modelled from the spec: `UrlService::create_server_url` combines the
configured base address with the given relative path and fails only when
the base configuration is absent (§4.4). -/
def UrlService.create_server_url (u : UrlService) (path : String) :
    Except AppError String :=
  match u.base_url with
  | none => .error .configError
  | some base => .ok (base ++ "/" ++ path)

/-- `uuid::Uuid::default()`, the nil uuid, as assigned at
src/service/image.rs line 75. -/
def uuidDefault : String := "00000000-0000-0000-0000-000000000000"

/-- `ImageService::extension_from_mime` (src/service/image.rs
lines 195-204). -/
def extension_from_mime (mime : String) : Except AppError String :=
  match mime with
  | "image/jpeg" => .ok "jpeg"
  | "image/png" => .ok "png"
  | _ => .error (.unsupportedImage ("MIME type " ++ mime ++ " is not supported"))

/-- `ImageService::make_filename` (src/service/image.rs lines 174-193),
with the two effectful inputs passed explicitly: `token` is the freshly
generated `Uuid::new_v4().to_string()` and `timestamp` the wall-clock
milliseconds since the epoch. -/
def make_filename (size : Int) (mime : String) (token : String)
    (timestamp : Nat) : Except AppError String :=
  match extension_from_mime mime with
  | .error e => .error e
  | .ok file_extension =>
    let temporal_name :=
      token ++ "_" ++ toString size ++ "_" ++ file_extension ++ "_" ++
        toString timestamp
    .ok (toString (defaultHashString temporal_name) ++ "." ++ file_extension)

/-- `ImageService::get_content_type` (src/service/image.rs lines 151-156):
the code `unwrap`s the optional header, so a missing header is a panic,
modelled as `none`. -/
def get_content_type (p : Part) : Option String := p.content_type

/-- `ImageService::part_bytes` (src/service/image.rs lines 158-172): folds
the part's chunk stream into one buffer preserving arrival order.  On a
stream failure the code first maps the error to
`Err(AppError::ReadImageError(..))` and then, in the arm
`Err(error) => Err(error.unwrap())` (line 170), calls `Result::unwrap` on
that always-`Err` value, which panics — modelled as `none`.  The
`ReadImageError` return its signature promises is therefore unreachable;
a successful stream is the only non-panicking outcome. -/
def part_bytes (p : Part) : Option (Except AppError (List Nat)) :=
  match p.streamError with
  | some _ => none
  | none => some (.ok p.chunks.flatten)

/-- `ImageService::from_part` (src/service/image.rs lines 61-84).  `decode`
stands for `image::load_from_memory` followed by
`GenericImageView::dimensions`, reporting the decoded image's width and
height or failing.  The result is `none` when the original code panics:
the missing content-type header unwrapped at line 153, or a stream
failure inside `part_bytes` (the `Result::unwrap` of an always-`Err`
value at line 170); the `some (.error e)` arm on `part_bytes` is the `?`
at line 63, which the panic makes unreachable.  Line 67 of the source
binds `let (height, width) = img.dimensions()` although `dimensions()`
yields `(width, height)`, so the local `height` receives the codec width
and the local `width` the codec height; the embedding reproduces that
binding. -/
def from_part (urls : UrlService) (decode : List Nat → Option Dimensions)
    (p : Part) (token : String) (timestamp : Nat) :
    Option (Except AppError Image) :=
  match get_content_type p with
  | none => none
  | some mime =>
    match part_bytes p with
    | none => none
    | some (.error e) => some (.error e)
    | some (.ok bytes) =>
      some (
        let image := bytes
        let size : Int := wrap32 bytes.length
        match decode bytes with
        | none => .error .decodeError
        | some img =>
          let height := img.width
          let width := img.height
          match make_filename size mime token timestamp with
          | .error e => .error e
          | .ok filename =>
            match urls.create_server_url ("api/v1/images/" ++ filename) with
            | .error e => .error e
            | .ok url =>
              .ok { id := uuidDefault, url := url, filename := filename,
                    image := image, size := size, mime := mime,
                    height := wrap16 height, width := wrap16 width })

/-- One row of the `images` table: the columns bound in
`ImageService::save` (src/service/image.rs lines 89-116) plus the
engine-assigned `id`. -/
structure DbRow where
  id : String
  owner_id : String
  height : Int
  width : Int
  mime : String
  filename : String
  url : String
  size : Int
  image : List Nat
  deriving DecidableEq

/-- Modelled from the spec: decoding a full row (`SELECT *` /
`INSERT ... RETURNING *`) into `crate::model::image::Image`
(`src/model/image.rs` is not among the sources).  Every `Image` field has
a matching column; the extra `owner_id` column is ignored. -/
def rowToImage (r : DbRow) : Image :=
  { id := r.id, url := r.url, filename := r.filename, image := r.image,
    size := r.size, mime := r.mime, height := r.height, width := r.width }

/-- `ImageService::save` (src/service/image.rs lines 86-120): a single
`INSERT ... RETURNING *` against the pool, modelled on an explicit table
state; the engine-assigned id is the explicit `newId` argument.  Modelled
from the spec: the `images` schema (not among the sources) carries a
uniqueness constraint on `filename`, violation of which surfaces as a
persistence error (§4.5, §3). -/
def save (db : List DbRow) (img : Image) (owner_id : String)
    (newId : String) : List DbRow × Except AppError Image :=
  if db.any (fun r => r.filename == img.filename) then
    (db, .error .persistenceError)
  else
    let row : DbRow :=
      { id := newId, owner_id := owner_id, height := img.height,
        width := img.width, mime := img.mime, filename := img.filename,
        url := img.url, size := img.size, image := img.image }
    (db ++ [row], .ok (rowToImage row))

/-- `ImageService::download` (src/service/image.rs lines 122-128):
`SELECT * FROM images WHERE filename = $1` with `fetch_one`, which yields
the first matching row.  Modelled from the spec: a row-not-found result
maps to the `NotFound` error kind (§7). -/
def download (db : List DbRow) (filename : String) : Except AppError Image :=
  match db.find? (fun r => r.filename == filename) with
  | none => .error .notFound
  | some r => .ok (rowToImage r)

/-- A value inside a SQL result row. -/
inductive SqlValue where
  | uuid (v : String)
  | int (v : Int)
  | str (v : String)
  | bytes (v : List Nat)
  deriving DecidableEq

/-- The result row produced by `get_info`'s query: exactly the six
selected columns, in `SELECT` order (src/service/image.rs lines 132-143). -/
def infoColumns (r : DbRow) : List (String × SqlValue) :=
  [("height", .int r.height), ("width", .int r.width), ("mime", .str r.mime),
   ("filename", .str r.filename), ("size", .int r.size),
   ("owner_id", .uuid r.owner_id)]

/-- `Row::try_get` by column name: a column absent from the result set is
the driver's `ColumnNotFound` error. -/
def tryGet (row : List (String × SqlValue)) (c : String) :
    Except AppError SqlValue :=
  match row.find? (fun kv => kv.1 == c) with
  | none => .error (.columnNotFound c)
  | some kv => .ok kv.2

/-- Decode a row value as a uuid column. -/
def SqlValue.asUuid (c : String) : SqlValue → Except AppError String
  | .uuid v => .ok v
  | _ => .error (.columnTypeError c)

/-- Decode a row value as an integer column. -/
def SqlValue.asInt (c : String) : SqlValue → Except AppError Int
  | .int v => .ok v
  | _ => .error (.columnTypeError c)

/-- Decode a row value as a text column. -/
def SqlValue.asStr (c : String) : SqlValue → Except AppError String
  | .str v => .ok v
  | _ => .error (.columnTypeError c)

/-- The derived `sqlx::FromRow` for `ImageResource`: each struct field is
fetched from the result row by its own name, in field declaration order
(src/service/image.rs lines 20-30); the first missing column aborts the
decode. -/
def imageResource_from_row (row : List (String × SqlValue)) :
    Except AppError ImageResource := do
  let id ← (← tryGet row "id").asUuid "id"
  let owner_id ← (← tryGet row "owner_id").asUuid "owner_id"
  let height ← (← tryGet row "height").asInt "height"
  let width ← (← tryGet row "width").asInt "width"
  let mime ← (← tryGet row "mime").asStr "mime"
  let filename ← (← tryGet row "filename").asStr "filename"
  let url ← (← tryGet row "url").asStr "url"
  let size ← (← tryGet row "size").asInt "size"
  pure { id := id, owner_id := owner_id, height := height, width := width,
         mime := mime, filename := filename, url := url, size := size }

/-- `ImageService::get_info` (src/service/image.rs lines 130-149): select
the six metadata columns of the row whose `id` matches and decode them as
an `ImageResource`; no matching row is the `NotFound` error (mapping
modelled from the spec, §7). -/
def get_info (db : List DbRow) (id : String) : Except AppError ImageResource :=
  match db.find? (fun r => r.id == id) with
  | none => .error .notFound
  | some r => imageResource_from_row (infoColumns r)

/-- `MAX_FILE_SIZE` (src/server/http.rs line 14): the transport-level cap
on a whole multipart body, applied by `Http::serve` to the upload routes. -/
def MAX_FILE_SIZE : Nat := 1000000

/-- The path at which `Http::serve` registers the binary download route
(src/server/http.rs lines 74-86): the filter chain
`api / v1 / files / <param>`. -/
def download_file_path (p : String) : String := "api/v1/files/" ++ p

instance {ε α : Type} [DecidableEq ε] [DecidableEq α] :
    DecidableEq (Except ε α) := fun a b =>
  match a, b with
  | .ok x, .ok y =>
    if h : x = y then isTrue (by rw [h])
    else isFalse (fun hc => h (Except.ok.inj hc))
  | .error x, .error y =>
    if h : x = y then isTrue (by rw [h])
    else isFalse (fun hc => h (Except.error.inj hc))
  | .ok _, .error _ => isFalse (fun hc => Except.noConfusion hc)
  | .error _, .ok _ => isFalse (fun hc => Except.noConfusion hc)

/-! Decimal representation of `Nat`: `toString` on `Nat` is `Nat.repr`,
which renders via `Nat.toDigitsCore`.  The development below shows that
representation is injective, which is what separates two synthesized
filenames once their hash values differ. -/

/-- Most-significant-first decimal digit characters of a natural number:
the list `Nat.toDigitsCore` produces once its fuel suffices. -/
def natDigList (n : Nat) : List Char :=
  if _h : n < 10 then [Nat.digitChar n]
  else natDigList (n / 10) ++ [Nat.digitChar (n % 10)]
decreasing_by exact Nat.div_lt_self (by omega) (by omega)

theorem toDigitsCore_eq_natDigList (fuel : Nat) :
    ∀ (n : Nat) (ds : List Char), n < fuel →
      Nat.toDigitsCore 10 fuel n ds = natDigList n ++ ds := by
  induction fuel with
  | zero => intro n ds h; omega
  | succ f ih =>
    intro n ds h
    by_cases h10 : n / 10 = 0
    · have hn : n < 10 := by omega
      simp only [Nat.toDigitsCore, h10, if_true]
      rw [natDigList, dif_pos hn, Nat.mod_eq_of_lt hn]
      rfl
    · have hge : 10 ≤ n := by
        by_contra hc
        push_neg at hc
        exact h10 (Nat.div_eq_of_lt hc)
      simp only [Nat.toDigitsCore, h10, if_false]
      rw [ih (n / 10) _ (by omega)]
      conv_rhs => rw [natDigList, dif_neg (by omega)]
      rw [List.append_assoc]
      rfl

theorem digitChar_val : ∀ n < 10, (Nat.digitChar n).toNat - 48 = n := by decide

/-- Fold a digit-character list back into the number it denotes. -/
def digitsVal (a : Nat) (l : List Char) : Nat :=
  List.foldl (fun acc c => acc * 10 + (c.toNat - 48)) a l

theorem digitsVal_natDigList (n : Nat) :
    ∀ a, digitsVal a (natDigList n) = a * 10 ^ (natDigList n).length + n := by
  induction n using Nat.strong_induction_on with
  | _ n ih =>
    intro a
    by_cases h : n < 10
    · rw [natDigList, dif_pos h]
      simp [digitsVal, digitChar_val n h]
    · rw [natDigList, dif_neg h]
      have hq : n / 10 < n := Nat.div_lt_self (by omega) (by omega)
      rw [digitsVal, List.foldl_append]
      have hfold := ih (n / 10) hq a
      rw [digitsVal] at hfold
      rw [hfold]
      have hdig : (Nat.digitChar (n % 10)).toNat - 48 = n % 10 :=
        digitChar_val (n % 10) (Nat.mod_lt n (by omega))
      simp only [List.foldl_cons, List.foldl_nil, hdig, List.length_append,
        List.length_singleton]
      have hpow : 10 ^ ((natDigList (n / 10)).length + 1) =
          10 ^ (natDigList (n / 10)).length * 10 := pow_succ 10 _
      rw [hpow]
      have : a * (10 ^ (natDigList (n / 10)).length * 10) =
          a * 10 ^ (natDigList (n / 10)).length * 10 := by ring
      rw [this]
      omega

theorem natDigList_inj {n m : Nat} (h : natDigList n = natDigList m) :
    n = m := by
  have h1 := digitsVal_natDigList n 0
  have h2 := digitsVal_natDigList m 0
  rw [h] at h1
  omega

theorem natToString_inj {n m : Nat}
    (h : (toString n : String) = toString m) : n = m := by
  have h' : Nat.repr n = Nat.repr m := h
  unfold Nat.repr Nat.toDigits at h'
  rw [toDigitsCore_eq_natDigList (n + 1) n [] (by omega),
    toDigitsCore_eq_natDigList (m + 1) m [] (by omega)] at h'
  have hd := congrArg String.data h'
  simp only [List.asString, List.append_nil] at hd
  exact natDigList_inj hd

/-- The 64-bit hash value is below `2^64`. -/
theorem defaultHashString_lt (s : String) : defaultHashString s < m64 :=
  Nat.mod_lt _ (by decide)

/-- Inversion of a successful run of `from_part`: the part carried a
content-type header, the stream did not fail, the codec decoded the
accumulated bytes, naming and URL resolution succeeded, and the produced
record is assembled exactly as at src/service/image.rs lines 74-83. -/
theorem from_part_ok_inv (urls : UrlService)
    (decode : List Nat → Option Dimensions) (p : Part) (token : String)
    (ts : Nat) (img : Image)
    (h : from_part urls decode p token ts = some (.ok img)) :
    ∃ mime dims filename url,
      p.content_type = some mime ∧
      p.streamError = none ∧
      decode p.chunks.flatten = some dims ∧
      make_filename (wrap32 p.chunks.flatten.length) mime token ts =
        .ok filename ∧
      urls.create_server_url ("api/v1/images/" ++ filename) = .ok url ∧
      img = { id := uuidDefault, url := url, filename := filename,
              image := p.chunks.flatten,
              size := wrap32 p.chunks.flatten.length, mime := mime,
              height := wrap16 dims.width, width := wrap16 dims.height } := by
  unfold from_part get_content_type part_bytes at h
  cases hct : p.content_type with
  | none => simp only [hct] at h; exact Option.noConfusion h
  | some mime =>
    simp only [hct] at h
    cases hse : p.streamError with
    | some e => simp only [hse] at h; exact Option.noConfusion h
    | none =>
      simp only [hse, Option.some.injEq] at h
      cases hdec : decode p.chunks.flatten with
      | none => simp only [hdec] at h; exact Except.noConfusion h
      | some dims =>
        simp only [hdec] at h
        cases hmk : make_filename (wrap32 p.chunks.flatten.length) mime
            token ts with
        | error e => simp only [hmk] at h; exact Except.noConfusion h
        | ok filename =>
          simp only [hmk] at h
          cases hurl : urls.create_server_url
              ("api/v1/images/" ++ filename) with
          | error e => simp only [hurl] at h; exact Except.noConfusion h
          | ok url =>
            simp only [hurl, Except.ok.injEq] at h
            exact ⟨mime, dims, filename, url, rfl, rfl, rfl, hmk, hurl,
              h.symm⟩

/-- C8: a multipart part carrying no content-type header makes the upload
pipeline panic (`get_content_type` unwraps the `None` header at
src/service/image.rs line 153, modelled as the `none` result) instead of
returning an error value, and any returned value — every error return
included — occurs only when a content-type header is present.  (Only
these two implications hold: their converse is false, since a present
header with a failing stream also panics, through the `Result::unwrap`
of the always-`Err` value at line 170.) -/
theorem claim8_missing_header_panics (urls : UrlService)
    (decode : List Nat → Option Dimensions) (p : Part) (token : String)
    (ts : Nat) :
    (get_content_type p = none →
      from_part urls decode p token ts = none) ∧
    (∀ r, from_part urls decode p token ts = some r →
      get_content_type p ≠ none) := by
  constructor
  · intro h
    unfold from_part
    rw [h]
  · intro r hr hct
    unfold from_part at hr
    rw [hct] at hr
    exact Option.noConfusion hr

/-- C8 witness: a concrete part without a content-type header panics. -/
theorem claim8_witness :
    from_part ⟨some "http://h"⟩ (fun _ => some ⟨1, 1⟩)
        ⟨none, [[1]], none⟩ "c8" 0 = none := by
  exact (claim8_missing_header_panics ⟨some "http://h"⟩
    (fun _ => some ⟨1, 1⟩) ⟨none, [[1]], none⟩ "c8" 0).1 rfl

/-- The path stored on a record and the path the download route matches
differ for every pair of filenames: they disagree at the fourth segment
(`images` versus `files`). -/
theorem images_path_ne_files_path (f g : String) :
    "api/v1/images/" ++ f ≠ download_file_path g := by
  intro hc
  have hd : ("api/v1/images/" ++ f).data = ("api/v1/files/" ++ g).data :=
    congrArg String.data hc
  rw [String.data_append, String.data_append] at hd
  have h7 := congrArg (fun l => l[7]?) hd
  simp only at h7
  rw [List.getElem?_append_left (by decide),
    List.getElem?_append_left (by decide)] at h7
  exact absurd h7 (by decide)

/-- C9: every record `from_part` assembles stores a URL whose path is
`api/v1/images/<filename>`, while `Http::serve` registers the binary
download route at `api/v1/files/<filename>`; the stored URL therefore
never addresses the subsystem's own download endpoint. -/
theorem claim9_stored_url_not_on_download_route (urls : UrlService)
    (decode : List Nat → Option Dimensions) (p : Part) (token : String)
    (ts : Nat) (img : Image) (base : String)
    (hb : urls.base_url = some base)
    (h : from_part urls decode p token ts = some (.ok img)) :
    img.url = base ++ "/" ++ ("api/v1/images/" ++ img.filename) ∧
    ∀ g, "api/v1/images/" ++ img.filename ≠ download_file_path g := by
  obtain ⟨mime, dims, filename, url, _, _, _, _, hurl, himg⟩ :=
    from_part_ok_inv urls decode p token ts img h
  unfold UrlService.create_server_url at hurl
  rw [hb] at hurl
  simp only [Except.ok.injEq] at hurl
  subst himg
  exact ⟨hurl.symm, fun g => images_path_ne_files_path filename g⟩

/-- C9 witness: a concrete successful upload against base `http://h`. -/
theorem claim9_witness :
    ({ id := "00000000-0000-0000-0000-000000000000",
       url := "http://h/api/v1/images/14777657328215708420.jpeg",
       filename := "14777657328215708420.jpeg", image := [1], size := 1,
       mime := "image/jpeg", height := 4, width := 4 } : Image).url =
      "http://h" ++ "/" ++
        ("api/v1/images/" ++ "14777657328215708420.jpeg") ∧
    "api/v1/images/" ++ "14777657328215708420.jpeg" ≠
      download_file_path "14777657328215708420.jpeg" := by
  have h := claim9_stored_url_not_on_download_route ⟨some "http://h"⟩
    (fun _ => some ⟨4, 4⟩) ⟨some "image/jpeg", [[1]], none⟩ "c9" 2
    { id := "00000000-0000-0000-0000-000000000000",
      url := "http://h/api/v1/images/14777657328215708420.jpeg",
      filename := "14777657328215708420.jpeg", image := [1], size := 1,
      mime := "image/jpeg", height := 4, width := 4 } "http://h" rfl
    (by decide)
  exact ⟨h.1, h.2 "14777657328215708420.jpeg"⟩

/-- A value in `[-32768, 32767]` cannot equal a natural number that is at
least `32768`. -/
theorem wrap16_ne_self (n : Nat) (h : 32768 ≤ n) : wrap16 n ≠ (n : Int) := by
  unfold wrap16
  split <;> omega

/-- C10: the codec's unsigned 32-bit dimensions are narrowed into the
record's signed 16-bit fields with the wrapping `as i16` cast: the record
holds `wrap16` of each codec dimension (the codec width landing in the
`height` field and vice versa, per the swapped binding at line 67), and
for any dimension of 32768 or more the persisted field differs from the
codec-reported value. -/
theorem claim10_dimensions_wrap (urls : UrlService)
    (decode : List Nat → Option Dimensions) (p : Part) (token : String)
    (ts : Nat) (img : Image) (d : Dimensions)
    (h : from_part urls decode p token ts = some (.ok img))
    (hd : decode p.chunks.flatten = some d) :
    (img.height = wrap16 d.width ∧ img.width = wrap16 d.height) ∧
    (32768 ≤ d.width →
      (img.height = wrap16 d.width ∨ img.width = wrap16 d.width) ∧
      wrap16 d.width ≠ (d.width : Int)) ∧
    (32768 ≤ d.height →
      (img.height = wrap16 d.height ∨ img.width = wrap16 d.height) ∧
      wrap16 d.height ≠ (d.height : Int)) := by
  obtain ⟨mime, dims, filename, url, hct, hse, hdec, hmk, hurl, himg⟩ :=
    from_part_ok_inv urls decode p token ts img h
  have hdim : d = dims := Option.some.inj (hd.symm.trans hdec)
  subst hdim
  subst himg
  exact ⟨⟨rfl, rfl⟩,
    fun hw => ⟨Or.inl rfl, wrap16_ne_self _ hw⟩,
    fun hh => ⟨Or.inr rfl, wrap16_ne_self _ hh⟩⟩

/-- C10 witness: a codec report of width 70000 and height 32768 persists
as 4464 and -32768. -/
theorem claim10_witness :
    ({ id := "00000000-0000-0000-0000-000000000000",
       url := "http://h/api/v1/images/9970377940129017465.png",
       filename := "9970377940129017465.png", image := [1, 2], size := 2,
       mime := "image/png", height := 4464, width := -32768 } :
        Image).height = wrap16 70000 ∧
    wrap16 70000 ≠ ((70000 : Nat) : Int) ∧
    wrap16 32768 ≠ ((32768 : Nat) : Int) := by
  have h := claim10_dimensions_wrap ⟨some "http://h"⟩
    (fun _ => some ⟨70000, 32768⟩) ⟨some "image/png", [[1, 2]], none⟩
    "c10" 5
    { id := "00000000-0000-0000-0000-000000000000",
      url := "http://h/api/v1/images/9970377940129017465.png",
      filename := "9970377940129017465.png", image := [1, 2], size := 2,
      mime := "image/png", height := 4464, width := -32768 }
    ⟨70000, 32768⟩ (by decide) rfl
  exact ⟨h.1.1, (h.2.1 (by norm_num)).2, (h.2.2 (by norm_num)).2⟩

/-- C1: on a decodable image whose codec dimensions are width 100 and
height 50 the upload pipeline succeeds, but the produced record carries
width 50 and height 100 — the codec height and width — because line 67
destructures `dimensions()`'s `(width, height)` as `(height, width)`.
The claimed record (width 100, height 50) is not what the code builds. -/
theorem claim1_record_swaps_codec_dimensions :
    (from_part ⟨some "http://h"⟩ (fun _ => some ⟨100, 50⟩)
        ⟨some "image/png", [[1, 2, 3]], none⟩ "c1" 7).map
      (fun r => r.map (fun i => (i.width, i.height))) =
      some (.ok (50, 100)) := by decide

/-- A mime outside the whitelist makes `extension_from_mime` fail with the
`UnsupportedImage` message built at src/service/image.rs lines 199-202. -/
theorem extension_from_mime_unsupported (mime : String)
    (h1 : mime ≠ "image/jpeg") (h2 : mime ≠ "image/png") :
    extension_from_mime mime =
      .error (.unsupportedImage
        ("MIME type " ++ mime ++ " is not supported")) := by
  unfold extension_from_mime
  split <;> simp_all

/-- C2 (amended): with a declared mime outside {image/jpeg, image/png},
the pipeline fails with `UnsupportedFormat` only when the bytes decode;
when they do not decode it fails with the decode error instead, because
`load_from_memory` runs before the whitelist is consulted
(src/service/image.rs lines 66-68). -/
theorem claim2_unsupported_mime_after_decode (urls : UrlService)
    (decode : List Nat → Option Dimensions) (p : Part) (token : String)
    (ts : Nat) (mime : String)
    (hct : p.content_type = some mime)
    (hse : p.streamError = none)
    (h1 : mime ≠ "image/jpeg") (h2 : mime ≠ "image/png") :
    (decode p.chunks.flatten = none →
      from_part urls decode p token ts = some (.error .decodeError)) ∧
    (∀ d, decode p.chunks.flatten = some d →
      from_part urls decode p token ts =
        some (.error (.unsupportedImage
          ("MIME type " ++ mime ++ " is not supported")))) := by
  have hmk : make_filename (wrap32 p.chunks.flatten.length) mime token ts =
      .error (.unsupportedImage
        ("MIME type " ++ mime ++ " is not supported")) := by
    unfold make_filename
    rw [extension_from_mime_unsupported mime h1 h2]
  constructor
  · intro hdec
    unfold from_part get_content_type part_bytes
    simp only [hct, hse, hdec]
  · intro d hdec
    unfold from_part get_content_type part_bytes
    simp only [hct, hse, hdec, hmk]

/-- C2 counterexample: bytes that do not decode, declared as `image/gif`,
fail with the decode error — not with the `UnsupportedFormat` error the
claim promises for every non-whitelisted mime. -/
theorem claim2_counterexample :
    from_part ⟨some "http://h"⟩ (fun _ => none)
        ⟨some "image/gif", [[0, 1, 2]], none⟩ "c2" 3 =
      some (.error .decodeError) ∧
    (Except.error AppError.decodeError : Except AppError Image) ≠
      .error (.unsupportedImage "MIME type image/gif is not supported") := by
  exact ⟨by decide, by decide⟩

/-- C2 witness: decodable bytes declared `image/gif` do fail with
`UnsupportedFormat` (after the decode). -/
theorem claim2_witness :
    from_part ⟨some "http://h"⟩ (fun _ => some ⟨1, 1⟩)
        ⟨some "image/gif", [[9]], none⟩ "c2" 3 =
      some (.error (.unsupportedImage
        "MIME type image/gif is not supported")) := by
  have h := (claim2_unsupported_mime_after_decode ⟨some "http://h"⟩
    (fun _ => some ⟨1, 1⟩) ⟨some "image/gif", [[9]], none⟩ "c2" 3
    "image/gif" rfl rfl (by decide) (by decide)).2 ⟨1, 1⟩ rfl
  exact h

/-- Below `2^31` the `usize as i32` narrowing is the identity; the
transport cap `MAX_FILE_SIZE` keeps every buffer far below that bound. -/
theorem wrap32_small (n : Nat) (h : n ≤ MAX_FILE_SIZE) :
    wrap32 n = (n : Int) := by
  unfold MAX_FILE_SIZE at h
  unfold wrap32
  split <;> omega

/-- The row `ImageService::save` binds into its insert statement
(src/service/image.rs lines 109-116). -/
def savedRow (img : Image) (owner newId : String) : DbRow :=
  { id := newId, owner_id := owner, height := img.height,
    width := img.width, mime := img.mime, filename := img.filename,
    url := img.url, size := img.size, image := img.image }

/-- Inversion of a successful `save`: no earlier row held the filename,
the table gained exactly the one new row, and the returned record is that
row read back. -/
theorem save_ok_inv (db : List DbRow) (img : Image) (owner newId : String)
    (db' : List DbRow) (saved : Image)
    (hs : save db img owner newId = (db', .ok saved)) :
    (∀ r ∈ db, r.filename ≠ img.filename) ∧
    db' = db ++ [savedRow img owner newId] ∧
    saved = rowToImage (savedRow img owner newId) := by
  unfold save at hs
  split at hs
  · simp at hs
  · rename_i hany
    simp only [Prod.mk.injEq, Except.ok.injEq] at hs
    obtain ⟨hdb, hsaved⟩ := hs
    refine ⟨?_, hdb.symm, hsaved.symm⟩
    intro r hr hc
    apply hany
    rw [List.any_eq_true]
    exact ⟨r, hr, by simp [hc]⟩

/-- C5: the record `from_part` assembles stores `size` equal to the byte
length of the buffer it stores (the `as i32` narrowing is the identity
under the transport cap), `save` persists both unchanged, and inserting
such a record preserves the table-wide invariant `size = len(bytes)`. -/
theorem claim5_size_matches_bytes (urls : UrlService)
    (decode : List Nat → Option Dimensions) (p : Part) (token : String)
    (ts : Nat) (img : Image) (db : List DbRow) (owner newId : String)
    (db' : List DbRow) (saved : Image)
    (h : from_part urls decode p token ts = some (.ok img))
    (hlen : p.chunks.flatten.length ≤ MAX_FILE_SIZE)
    (hs : save db img owner newId = (db', .ok saved)) :
    img.size = (img.image.length : Int) ∧
    saved.size = (saved.image.length : Int) ∧
    ((∀ r ∈ db, r.size = (r.image.length : Int)) →
      ∀ r ∈ db', r.size = (r.image.length : Int)) := by
  obtain ⟨mime, dims, filename, url, hct, hse, hdec, hmk, hurl, himg⟩ :=
    from_part_ok_inv urls decode p token ts img h
  obtain ⟨hnone, hdb, hsaved⟩ := save_ok_inv db img owner newId db' saved hs
  have hsize : img.size = (img.image.length : Int) := by
    subst himg
    exact wrap32_small _ hlen
  refine ⟨hsize, ?_, ?_⟩
  · subst hsaved
    exact hsize
  · intro hinv r hr
    subst hdb
    rcases List.mem_append.1 hr with hin | hnew
    · exact hinv r hin
    · rw [List.mem_singleton.1 hnew]
      exact hsize

/-- C5 witness: a four-byte upload stores size 4, before and after the
insert, and the invariant holds on the one-row table it produces. -/
theorem claim5_witness :
    ({ id := "00000000-0000-0000-0000-000000000000",
       url := "http://h/api/v1/images/4637773417452358508.png",
       filename := "4637773417452358508.png", image := [5, 6, 7, 8],
       size := 4, mime := "image/png", height := 2, width := 3 } :
        Image).size = (4 : Int) ∧
    ({ id := "row1",
       url := "http://h/api/v1/images/4637773417452358508.png",
       filename := "4637773417452358508.png", image := [5, 6, 7, 8],
       size := 4, mime := "image/png", height := 2, width := 3 } :
        Image).size = (4 : Int) := by
  have h := claim5_size_matches_bytes ⟨some "http://h"⟩
    (fun _ => some ⟨2, 3⟩) ⟨some "image/png", [[5, 6, 7, 8]], none⟩
    "c5" 11
    { id := "00000000-0000-0000-0000-000000000000",
      url := "http://h/api/v1/images/4637773417452358508.png",
      filename := "4637773417452358508.png", image := [5, 6, 7, 8],
      size := 4, mime := "image/png", height := 2, width := 3 }
    [] "u" "row1" _ _ (by decide) (by decide) rfl
  exact ⟨h.1, h.2.1⟩

/-- C4: immediately after a successful `save`, `download` of the saved
filename returns the full saved record — whose filename, mime, size and
raw bytes match the record that was saved — and `download` of any filename
carried by no row fails with `NotFound`. -/
theorem claim4_save_download_roundtrip (db : List DbRow) (img : Image)
    (owner newId : String) (db' : List DbRow) (saved : Image)
    (hs : save db img owner newId = (db', .ok saved)) :
    download db' saved.filename = .ok saved ∧
    saved.filename = img.filename ∧ saved.mime = img.mime ∧
    saved.size = img.size ∧ saved.image = img.image ∧
    (∀ f, (∀ r ∈ db', r.filename ≠ f) →
      download db' f = .error .notFound) := by
  obtain ⟨hnone, hdb, hsaved⟩ := save_ok_inv db img owner newId db' saved hs
  subst hdb
  subst hsaved
  refine ⟨?_, rfl, rfl, rfl, rfl, ?_⟩
  · unfold download
    rw [List.find?_append]
    have hmiss : List.find?
        (fun r => r.filename ==
          (rowToImage (savedRow img owner newId)).filename) db = none :=
      List.find?_eq_none.mpr (fun r hr => by
        simpa [rowToImage, savedRow] using hnone r hr)
    rw [hmiss, Option.none_or]
    simp [List.find?, rowToImage, savedRow]
  · intro f hf
    unfold download
    have hmiss : List.find? (fun r => r.filename == f)
        (db ++ [savedRow img owner newId]) = none :=
      List.find?_eq_none.mpr (fun r hr => by simpa using hf r hr)
    rw [hmiss]

/-- C4 witness: a concrete save into the empty table followed by a hit
and a miss. -/
theorem claim4_witness :
    download [{ id := "row1", owner_id := "u", height := 1, width := 1,
                mime := "image/png", filename := "f.png",
                url := "http://h/x", size := 2, image := [1, 2] }]
        "f.png" =
      .ok { id := "row1", url := "http://h/x", filename := "f.png",
            image := [1, 2], size := 2, mime := "image/png", height := 1,
            width := 1 } ∧
    download [{ id := "row1", owner_id := "u", height := 1, width := 1,
                mime := "image/png", filename := "f.png",
                url := "http://h/x", size := 2, image := [1, 2] }]
        "nope" = .error .notFound := by
  have h := claim4_save_download_roundtrip []
    { id := "00000000-0000-0000-0000-000000000000", url := "http://h/x",
      filename := "f.png", image := [1, 2], size := 2,
      mime := "image/png", height := 1, width := 1 } "u" "row1" _ _ rfl
  exact ⟨h.1, h.2.2.2.2.2 "nope" (by decide)⟩

/-- C3: `get_info` selects only height, width, mime, filename, size and
owner_id, but decodes the result row as an `ImageResource`, whose derived
`FromRow` first fetches the absent `id` column — so the lookup of an
existing record fails with the `ColumnNotFound "id"` database error
instead of returning the metadata projection; an id matching no record
fails with `NotFound` as claimed. -/
theorem claim3_get_info_row_decode_fails :
    get_info [{ id := "id1", owner_id := "u1", height := 50, width := 100,
                mime := "image/png", filename := "f.png",
                url := "http://h/api/v1/images/f.png", size := 3,
                image := [1, 2, 3] }] "id1" =
      .error (.columnNotFound "id") ∧
    get_info [{ id := "id1", owner_id := "u1", height := 50, width := 100,
                mime := "image/png", filename := "f.png",
                url := "http://h/api/v1/images/f.png", size := 3,
                image := [1, 2, 3] }] "id2" = .error .notFound := by
  exact ⟨by decide, by decide⟩

/-- C6: filename synthesis maps the mime through the whitelist
{image/jpeg → jpeg, image/png → png} and otherwise fails with the
`UnsupportedFormat` error; on success it hashes the seed string built
from the random token, the byte size, the extension and the timestamp,
and returns exactly `"<hash>.<extension>"`. -/
theorem claim6_make_filename_shape (size : Int) (mime token : String)
    (ts : Nat) :
    (mime ≠ "image/jpeg" → mime ≠ "image/png" →
      make_filename size mime token ts =
        .error (.unsupportedImage
          ("MIME type " ++ mime ++ " is not supported"))) ∧
    extension_from_mime "image/jpeg" = .ok "jpeg" ∧
    extension_from_mime "image/png" = .ok "png" ∧
    (∀ ext, extension_from_mime mime = .ok ext →
      make_filename size mime token ts =
        .ok (toString (defaultHashString
            (token ++ "_" ++ toString size ++ "_" ++ ext ++ "_" ++
              toString ts)) ++ "." ++ ext)) := by
  refine ⟨?_, rfl, rfl, ?_⟩
  · intro h1 h2
    unfold make_filename
    rw [extension_from_mime_unsupported mime h1 h2]
  · intro ext hext
    unfold make_filename
    rw [hext]

/-- C6 witness: a concrete synthesis under mime image/png. -/
theorem claim6_witness :
    make_filename 5000 "image/png" "tok" 9 =
      .ok "2658953525256429926.png" := by
  have h := (claim6_make_filename_shape 5000 "image/png" "tok" 9).2.2.2
    "png" rfl
  rw [h]
  decide

/-- C7 counterexample: two distinct tokens whose synthesized filenames
coincide exist, because the filename depends on the token only through a
64-bit hash, which cannot be injective on infinitely many tokens.  This
refutes the claim that any two uploads with distinct random tokens always
receive different filenames. -/
theorem claim7_counterexample :
    ∃ t₁ t₂ : String, t₁ ≠ t₂ ∧
      make_filename 5000 "image/png" t₁ 0 =
        make_filename 5000 "image/png" t₂ 0 := by
  have key : ∀ t : String, make_filename 5000 "image/png" t 0 =
      .ok (toString (defaultHashString (t ++ "_" ++ toString (5000 : Int) ++
        "_" ++ "png" ++ "_" ++ toString (0 : Nat))) ++ "." ++ "png") :=
    fun t => rfl
  obtain ⟨n, m, hnm, heq⟩ := Finite.exists_ne_map_eq_of_infinite
    (fun n : Nat => (⟨defaultHashString (String.mk (List.replicate n 'a') ++
      "_" ++ toString (5000 : Int) ++ "_" ++ "png" ++ "_" ++
      toString (0 : Nat)), defaultHashString_lt _⟩ : Fin m64))
  simp only [Fin.mk.injEq] at heq
  refine ⟨String.mk (List.replicate n 'a'), String.mk (List.replicate m 'a'),
    ?_, ?_⟩
  · intro hc
    injection hc with hdata
    apply hnm
    have hlen := congrArg List.length hdata
    simpa using hlen
  · rw [key, key, heq]

/-- C7 (amended): two synthesized filenames are distinct whenever the
64-bit hashes of their seed strings differ; distinct tokens or timestamps
make the seeds distinct, but only the hash values separate the final
filenames, so a hash collision — which must exist — yields the same
filename and is surfaced at insert time as a uniqueness violation. -/
theorem claim7_filenames_distinct_of_hash_ne (size : Int)
    (mime t₁ t₂ : String) (ts₁ ts₂ : Nat) (f₁ f₂ ext : String)
    (hext : extension_from_mime mime = .ok ext)
    (h₁ : make_filename size mime t₁ ts₁ = .ok f₁)
    (h₂ : make_filename size mime t₂ ts₂ = .ok f₂)
    (hh : defaultHashString
        (t₁ ++ "_" ++ toString size ++ "_" ++ ext ++ "_" ++ toString ts₁) ≠
      defaultHashString
        (t₂ ++ "_" ++ toString size ++ "_" ++ ext ++ "_" ++ toString ts₂)) :
    f₁ ≠ f₂ := by
  unfold make_filename at h₁ h₂
  rw [hext] at h₁ h₂
  simp only [Except.ok.injEq] at h₁ h₂
  subst h₁
  subst h₂
  intro hc
  apply hh
  apply natToString_inj
  have hd := congrArg String.data hc
  simp only [String.data_append] at hd
  exact String.ext
    (List.append_cancel_right (List.append_cancel_right hd))

/-- C7 witness: two concrete tokens whose seed hashes differ receive
distinct filenames. -/
theorem claim7_witness :
    make_filename 5000 "image/png" "a" 0 ≠
      make_filename 5000 "image/png" "b" 0 := by
  have hne := claim7_filenames_distinct_of_hash_ne 5000 "image/png" "a" "b"
    0 0 "1161853025532180922.png" "4901597183865812954.png" "png"
    rfl (by decide) (by decide) (by decide)
  intro hc
  rw [show make_filename 5000 "image/png" "a" 0 =
      .ok "1161853025532180922.png" from by decide,
    show make_filename 5000 "image/png" "b" 0 =
      .ok "4901597183865812954.png" from by decide] at hc
  exact hne (Except.ok.inj hc)

end Hoth
